import Mathlib

/-!
Shallow embedding of the `nesem` 6502 interpreter core
(`src/interp/state.rs`, `src/interp/operand_decoder.rs`,
`src/interp/alu.rs`, `src/interp/execution.rs`) together with
theorems settling the specification claims about it.

Machine integers are modelled as `Nat` with explicit `% 256` / `% 65536`
where the Rust code wraps.  A Rust panic (an out-of-bounds array index,
a failed `unwrap`/`expect`, or a debug-mode overflow of an unchecked
`+`/`-` on `u8`/`u16`) is modelled as `Option.none`, so fallible
operations return `Option`.
-/

namespace Nesem

/-- Rust `u8::wrapping_sub` for `b ≤ 255`: `(a - b) mod 256`. -/
def wsub8 (a b : Nat) : Nat := (a + 256 - b % 256) % 256

/-- Rust debug-mode `+` on `u8`: overflow aborts. -/
def checkedAdd8 (a b : Nat) : Option Nat :=
  if a + b ≤ 255 then some (a + b) else none

/-- Rust debug-mode `+` on `u16`: overflow aborts. -/
def checkedAdd16 (a b : Nat) : Option Nat :=
  if a + b ≤ 65535 then some (a + b) else none

/-- Rust debug-mode `-` on an unsigned integer: underflow aborts. -/
def checkedSub (a b : Nat) : Option Nat :=
  if b ≤ a then some (a - b) else none

/-- Rust `i8 as u16` sign extension, i.e. the two's-complement bits of `i`
as a 16-bit unsigned value. -/
def sext16 (i : Int) : Nat := (i % 65536).toNat

/-- The interpreter state, from `struct State` in `src/interp/state.rs`.
The three backing arrays are modelled as functions from index to stored
byte; `ram` is the `[u8; 0x800]` array, meaningful at indices `< 0x800`. -/
structure State where
  pc : Nat
  sp : Nat
  psw : Nat
  accumulator : Nat
  x : Nat
  y : Nat
  ram : Nat → Nat
  ppu_registers : Nat → Nat
  apu_input : Nat → Nat

def PSW_CARRY_BIT : Nat := 1
def PSW_ZERO_BIT : Nat := 2
def PSW_INTERRUPT_BIT : Nat := 4
def PSW_DECIMAL_BIT : Nat := 8
def PSW_BREAK_BIT : Nat := 16
def PSW_ONE_BIT : Nat := 32
def PSW_OVERFLOW_BIT : Nat := 64
def PSW_NEGATIVE_BIT : Nat := 128

def STACK_OFFSET : Nat := 0x100

/-- Size of the `ram` array (`[u8; 0x800]`). -/
def RAM_SIZE : Nat := 0x800

/-- `State::new_undefined` from `src/interp/state.rs`. -/
def State.new_undefined : State :=
  { pc := 0
    sp := 0
    psw := PSW_ONE_BIT
    accumulator := 0
    x := 0
    y := 0
    ram := fun _ => 0
    ppu_registers := fun _ => 0
    apu_input := fun _ => 0 }

/-- `State::ram_get`: `self.ram[addr as usize]`; indexing outside the
`0x800`-byte array aborts. -/
def State.ram_get (s : State) (addr : Nat) : Option Nat :=
  if addr < RAM_SIZE then some (s.ram addr) else none

/-- `State::ram_set`: `self.ram[addr as usize] = value`; indexing outside
the `0x800`-byte array aborts. -/
def State.ram_set (s : State) (addr v : Nat) : Option State :=
  if addr < RAM_SIZE then
    some { s with ram := fun i => if i = addr then v else s.ram i }
  else none

/-- `State::get_sp`: `STACK_OFFSET + self.pc` — note the use of `pc`,
exactly as the source computes it (checked 16-bit addition). -/
def State.get_sp (s : State) : Option Nat :=
  checkedAdd16 STACK_OFFSET s.pc

/-- `State::stack_push`. -/
def State.stack_push (s : State) (val : Nat) : Option State := do
  let addr ← s.get_sp
  let s ← s.ram_set addr val
  pure { s with sp := wsub8 s.sp 1 }

/-- `State::stack_pop`; returns the popped byte and the new state. -/
def State.stack_pop (s : State) : Option (Nat × State) := do
  let s := { s with sp := (s.sp + 1) % 256 }
  let addr ← s.get_sp
  let v ← s.ram_get addr
  pure (v, s)

/-- `State::push_pc`: `stack_push(pc as u8)` then
`stack_push((pc >> 8) as u8)`. -/
def State.push_pc (s : State) : Option State := do
  let s1 ← s.stack_push (s.pc % 256)
  s1.stack_push ((s1.pc >>> 8) % 256)

/-- `State::pop_pc`: `pc = 0; pc = (stack_pop() as u16) << 8;
pc |= stack_pop() as u16`. -/
def State.pop_pc (s : State) : Option State := do
  let s := { s with pc := 0 }
  let (v1, s) ← s.stack_pop
  let s := { s with pc := (v1 <<< 8) % 65536 }
  let (v2, s) ← s.stack_pop
  pure { s with pc := s.pc ||| v2 }

/-- Expansion of `psw_getset!` getter: `self.psw & mask > 0`. -/
def State.get_carry (s : State) : Bool := decide (s.psw &&& PSW_CARRY_BIT > 0)

/-- Expansion of `psw_getset!` setter:
`self.psw &= !mask; if v { self.psw |= mask }`. -/
def State.set_carry (s : State) (v : Bool) : State :=
  let p := s.psw &&& (255 ^^^ PSW_CARRY_BIT)
  { s with psw := if v then p ||| PSW_CARRY_BIT else p }

def State.get_zero (s : State) : Bool := decide (s.psw &&& PSW_ZERO_BIT > 0)

def State.set_zero (s : State) (v : Bool) : State :=
  let p := s.psw &&& (255 ^^^ PSW_ZERO_BIT)
  { s with psw := if v then p ||| PSW_ZERO_BIT else p }

def State.get_interrupt (s : State) : Bool :=
  decide (s.psw &&& PSW_INTERRUPT_BIT > 0)

def State.set_interrupt (s : State) (v : Bool) : State :=
  let p := s.psw &&& (255 ^^^ PSW_INTERRUPT_BIT)
  { s with psw := if v then p ||| PSW_INTERRUPT_BIT else p }

def State.get_break (s : State) : Bool := decide (s.psw &&& PSW_BREAK_BIT > 0)

def State.set_break (s : State) (v : Bool) : State :=
  let p := s.psw &&& (255 ^^^ PSW_BREAK_BIT)
  { s with psw := if v then p ||| PSW_BREAK_BIT else p }

def State.get_overflow (s : State) : Bool :=
  decide (s.psw &&& PSW_OVERFLOW_BIT > 0)

def State.set_overflow (s : State) (v : Bool) : State :=
  let p := s.psw &&& (255 ^^^ PSW_OVERFLOW_BIT)
  { s with psw := if v then p ||| PSW_OVERFLOW_BIT else p }

def State.get_negative (s : State) : Bool :=
  decide (s.psw &&& PSW_NEGATIVE_BIT > 0)

def State.set_negative (s : State) (v : Bool) : State :=
  let p := s.psw &&& (255 ^^^ PSW_NEGATIVE_BIT)
  { s with psw := if v then p ||| PSW_NEGATIVE_BIT else p }

/-- The operand variants, from `src/instruction/operand.rs`.
`u8`/`u16` payloads are `Nat`; the `i8` payload of `Relative` is `Int`. -/
inductive Operand where
  | Implicit
  | Accumulator
  | Immediate (v : Nat)
  | ZeroPage (v : Nat)
  | ZeroPageX (v : Nat)
  | ZeroPageY (v : Nat)
  | Relative (v : Int)
  | Absolute (v : Nat)
  | AbsoluteX (v : Nat)
  | AbsoluteY (v : Nat)
  | Indirect (v : Nat)
  | IndexedIndirect (v : Nat)
  | IndirectIndexed (v : Nat)

/-- `load_le16_zp` from `src/interp/operand_decoder.rs`: the `addr`
argument is a `u8`, the second byte is fetched at `addr.wrapping_add(1)`. -/
def load_le16_zp (s : State) (addr : Nat) : Option Nat := do
  let lsb ← s.ram_get addr
  let msb ← s.ram_get ((addr + 1) % 256)
  pure ((msb <<< 8) ||| lsb)

/-- `load_le16` from `src/interp/operand_decoder.rs`. -/
def load_le16 (s : State) (addr : Nat) : Option Nat := do
  let lsb ← s.ram_get addr
  let msb ← s.ram_get ((addr + 1) % 65536)
  pure ((msb <<< 8) ||| lsb)

/-- `get_pointer` from `src/interp/operand_decoder.rs`. The outer
`Option` models a possible abort inside the resolution (a ram read out
of bounds or the unchecked `table_addr + y` addition); the inner `Option`
is the Rust `Option<u16>` result. -/
def get_pointer (op : Operand) (s : State) : Option (Option Nat) :=
  match op with
  | .Implicit => some none
  | .Accumulator => some none
  | .Immediate _ => some none
  | .ZeroPage o => some (some o)
  | .ZeroPageX o => some (some ((s.x + o) % 256))
  | .ZeroPageY o => some (some ((s.y + o) % 256))
  | .Relative o => some (some ((s.pc + sext16 o) % 65536))
  | .Absolute o => some (some o)
  | .AbsoluteX o => some (some ((o + s.x) % 65536))
  | .AbsoluteY o => some (some ((o + s.y) % 65536))
  | .Indirect o => (load_le16 s o).map some
  | .IndexedIndirect t => (load_le16_zp s ((t + s.x) % 256)).map some
  | .IndirectIndexed t => do
      let ta ← load_le16 s t
      let r ← checkedAdd16 ta s.y
      pure (some r)

/-- `get_value` from `src/interp/operand_decoder.rs` (16-bit read). -/
def get_value (op : Operand) (s : State) : Option (Option Nat) :=
  match op with
  | .Implicit => some none
  | .Accumulator => some (some s.accumulator)
  | .Immediate v => some (some v)
  | _ => do
      let p? ← get_pointer op s
      match p? with
      | none => pure none
      | some p => (load_le16 s p).map some

/-- `get_u8` from `src/interp/operand_decoder.rs`. -/
def get_u8 (op : Operand) (s : State) : Option (Option Nat) :=
  match op with
  | .Implicit => some none
  | .Accumulator => some (some s.accumulator)
  | .Immediate v => some (some v)
  | _ => do
      let p? ← get_pointer op s
      match p? with
      | none => pure none
      | some p => (s.ram_get p).map some

/-- `set_u8` from `src/interp/operand_decoder.rs`. The payload pairs the
Rust `Result<(), ()>` with the state after the call (the `Err` arm
performs no mutation). -/
def set_u8 (op : Operand) (val : Nat) (s : State) :
    Option (Except Unit Unit × State) :=
  match get_pointer op s with
  | none => none
  | some (some p) =>
      match s.ram_set p val with
      | none => none
      | some s' => some (Except.ok (), s')
  | some none =>
      match op with
      | .Accumulator => some (Except.ok (), { s with accumulator := val })
      | _ => some (Except.error (), s)

/-- `is_positive` from `src/interp/alu.rs`. -/
def is_positive (a : Nat) : Bool := decide (a &&& 0x80 = 0)

/-- `is_negative` from `src/interp/alu.rs`. -/
def is_negative (a : Nat) : Bool := !is_positive a

/-- `is_add_overflow` from `src/interp/alu.rs`. -/
def is_add_overflow (a b : Nat) (carry : Bool) : Bool :=
  if is_positive a != is_positive b then false
  else
    let c := if carry then 1 else 0
    let n := ((a + b) % 256 + c) % 256
    is_positive a != is_positive n

/-- `is_sub_overflow` from `src/interp/alu.rs`. -/
def is_sub_overflow (a b : Nat) (carry : Bool) : Bool :=
  if is_positive a = is_positive b then false
  else
    let c := if carry then 0 else 1
    let n := wsub8 (wsub8 a b) c
    is_positive a != is_positive n

/-- `adc` from `src/interp/alu.rs`.  `overflowing_add` yields the wrapped
sum and the carry-out bool; the subsequent `new + prev_carry` is an
unchecked `u8` addition, modelled as `checkedAdd8`. -/
def adc (s : State) (op : Operand) : Option State := do
  let v? ← get_value op s
  let value ← v?
  let value := value % 256
  let prev_carry := if s.get_carry then 1 else 0
  let new := (s.accumulator + value) % 256
  let carry := decide (s.accumulator + value ≥ 256)
  let new ← checkedAdd8 new prev_carry
  let overflow := is_add_overflow value s.accumulator s.get_carry
  let s := { s with accumulator := new }
  let s := s.set_carry carry
  let s := s.set_overflow overflow
  let s := s.set_negative (decide (new &&& 0b10000000 > 0))
  let s := s.set_zero (decide (new = 0))
  pure s

/-- `sbc` from `src/interp/alu.rs`.  `overflowing_sub` yields the wrapped
difference and the borrow bool; the subsequent `new - (1 - c)` is an
unchecked `u8` subtraction, modelled as `checkedSub`. -/
def sbc (s : State) (op : Operand) : Option State := do
  let a := s.accumulator
  let b? ← get_u8 op s
  let b ← b?
  let c := if s.get_carry then 1 else 0
  let new := wsub8 a b
  let carry := decide (a < b)
  let overflow := is_sub_overflow a b s.get_carry
  let new ← checkedSub new (1 - c)
  let s := { s with accumulator := new }
  let s := s.set_zero (decide (s.accumulator = 0))
  let s := s.set_carry (!carry)
  let s := s.set_overflow overflow
  let s := s.set_negative (is_negative new)
  pure s

/-- `rol` from `src/interp/alu.rs`: after reading the operand and setting
Carry from the sign bit, the rotated value is computed into a local that
is never stored — the function ends there. -/
def rol (s : State) (op : Operand) : Option State := do
  let v? ← get_u8 op s
  let value ← v?
  let lsb := if s.get_carry then 1 else 0
  let s := s.set_carry (is_negative value)
  let _value := ((value <<< 1) % 256) ||| lsb
  pure s

/-- `ror` from `src/interp/alu.rs`: after reading the operand and setting
Carry from the sign bit, the rotated value is computed into a local that
is never stored — the function ends there. -/
def ror (s : State) (op : Operand) : Option State := do
  let v? ← get_u8 op s
  let value ← v?
  let msb := if s.get_carry then 1 <<< 7 else 0
  let s := s.set_carry (is_negative value)
  let _value := (value >>> 1) ||| msb
  pure s

/-- `bit` from `src/interp/execution.rs`: Negative and Overflow are taken
from bits 7 and 6 of `r = accumulator & operand`; the Zero flag is not
touched. -/
def bit (s : State) (op : Operand) : Option State := do
  let a := s.accumulator
  let v? ← get_u8 op s
  let v ← v?
  let r := a &&& v
  let s := s.set_negative (decide (r &&& (1 <<< 7) > 0))
  let s := s.set_overflow (decide (r &&& (1 <<< 6) > 0))
  pure s

/-- Expansion of `flag!(clc, sec, set_carry)` in
`src/interp/execution.rs`. -/
def clc (s : State) (_op : Operand) : State := s.set_carry false

def sec (s : State) (_op : Operand) : State := s.set_carry true

/-- Expansion of `flag!(cli, sei, set_interrupt)`. -/
def cli (s : State) (_op : Operand) : State := s.set_interrupt false

def sei (s : State) (_op : Operand) : State := s.set_interrupt true

/-- Expansion of `flag!(clv, set_interrupt)` in
`src/interp/execution.rs`: `clv` calls `set_interrupt(false)`. -/
def clv (s : State) (_op : Operand) : State := s.set_interrupt false

/-- Modelled from the spec wording of the canonical `push_pc` order
(spec section 4.1): push the high byte of `pc` first, then the low
byte — to be compared with `State.push_pc` above. -/
def push_pc_claimed (s : State) : Option State := do
  let s1 ← s.stack_push ((s.pc >>> 8) % 256)
  s1.stack_push (s1.pc % 256)

theorem get_carry_set_carry (s : State) (v : Bool) : (s.set_carry v).get_carry = v := by
  cases v <;>
    simp [State.set_carry, State.get_carry, PSW_CARRY_BIT, Nat.and_distrib_right,
      Nat.and_assoc]
  · rcases Nat.mod_two_eq_zero_or_one (s.psw &&& 254) with h | h
    · exact h
    · rw [Nat.and_mod_two_eq_one] at h
      omega
  · have h : (s.psw &&& 254 ||| 1) % 2 = 1 := by
      rw [Nat.or_mod_two_eq_one]; right; rfl
    omega

theorem set_carry_accumulator (s : State) (v : Bool) :
    (s.set_carry v).accumulator = s.accumulator := rfl

theorem set_zero_accumulator (s : State) (v : Bool) :
    (s.set_zero v).accumulator = s.accumulator := rfl

theorem set_overflow_accumulator (s : State) (v : Bool) :
    (s.set_overflow v).accumulator = s.accumulator := rfl

theorem set_negative_accumulator (s : State) (v : Bool) :
    (s.set_negative v).accumulator = s.accumulator := rfl

theorem stack_push_preserves_pc (s : State) (v : Nat) (t : State)
    (h : s.stack_push v = some t) : t.pc = s.pc := by
  unfold State.stack_push State.get_sp checkedAdd16 State.ram_set at h
  by_cases h1 : STACK_OFFSET + s.pc ≤ 65535 <;> simp [h1] at h
  by_cases h2 : STACK_OFFSET + s.pc < RAM_SIZE <;> simp [h2] at h
  rw [← h]

theorem stack_pop_preserves_pc (s : State) (v : Nat) (t : State)
    (h : s.stack_pop = some (v, t)) : t.pc = s.pc := by
  unfold State.stack_pop State.get_sp checkedAdd16 State.ram_get at h
  by_cases h1 : STACK_OFFSET + s.pc ≤ 65535 <;> simp [h1] at h
  by_cases h2 : STACK_OFFSET + s.pc < RAM_SIZE <;> simp [h2] at h
  rw [← h.2]

/-- C1: `stack_push` on a state with `sp = 0xFF`, `pc = 0x10` writes the
pushed byte at `0x0100 + pc = 0x0110` and leaves `0x0100 + sp = 0x01FF`
untouched (while still decrementing `sp`), because `get_sp` computes
`STACK_OFFSET + pc` — contradicting the claim that the stack slot
address is `0x0100 + sp`, a function of `sp` only. -/
theorem stack_push_addresses_by_pc_not_sp :
    ((({ State.new_undefined with sp := 0xFF, pc := 0x10 } : State).stack_push 0x42).bind
        (fun t => t.ram_get 0x0110) = some 0x42)
  ∧ ((({ State.new_undefined with sp := 0xFF, pc := 0x10 } : State).stack_push 0x42).bind
        (fun t => t.ram_get 0x01FF) = some 0)
  ∧ ((({ State.new_undefined with sp := 0xFF, pc := 0x10 } : State).stack_push 0x42).map
        State.sp = some 0xFE) :=
  ⟨rfl, rfl, rfl⟩

/-- C2: `adc` with accumulator `0xFF`, operand `Immediate 0` and the
Carry flag set aborts: `accumulator.overflowing_add(0)` wraps to `0xFF`
with carry-out false, and the subsequent unchecked `new + prev_carry`
overflows `u8` — contradicting the claim that `adc` never aborts and
would set the accumulator to `0x00` with Carry = true here. -/
theorem adc_aborts_on_carry_past_0xFF :
    Nesem.adc (({ State.new_undefined with accumulator := 0xFF } : State).set_carry true)
      (Operand.Immediate 0) = none := rfl

/-- C3 counterexample: on a state with `pc = 0x0234`, `sp = 0xFF`, the
source `push_pc` (low byte first, high byte second) and the claimed
order (high byte first, low byte second, `push_pc_claimed`) produce
different states: the byte left at the (single, `pc`-derived) stack
address `0x0334` is the high byte `0x02` for the source and the low
byte `0x34` for the claimed order. -/
theorem push_pc_not_high_byte_first :
    ((({ State.new_undefined with pc := 0x0234, sp := 0xFF } : State).push_pc).bind
        (fun t => t.ram_get 0x0334) = some 0x02)
  ∧ ((push_pc_claimed { State.new_undefined with pc := 0x0234, sp := 0xFF }).bind
        (fun t => t.ram_get 0x0334) = some 0x34)
  ∧ (({ State.new_undefined with pc := 0x0234, sp := 0xFF } : State).push_pc
        ≠ push_pc_claimed { State.new_undefined with pc := 0x0234, sp := 0xFF }) := by
  refine ⟨rfl, rfl, fun h => ?_⟩
  have h2 := congrArg (fun o => Option.bind o (fun t => t.ram_get 0x0334)) h
  exact absurd h2 (by decide)

/-- C4 counterexample: `ram_get`/`ram_set` abort at address `0x800`
(the backing array has `0x800` bytes and the index is unchecked),
contradicting totality over the full 16-bit address space. -/
theorem ram_access_aborts_at_0x800 :
    State.new_undefined.ram_get 0x800 = none
  ∧ State.new_undefined.ram_set 0x800 0 = none :=
  ⟨rfl, rfl⟩

/-- C4 amended: `ram_get` and `ram_set` succeed exactly at the addresses
of the 2 KB backing array, i.e. `addr < 0x800`; any other address
aborts. -/
theorem ram_access_total_iff_below_0x800 (s : State) (addr v : Nat) :
    ((s.ram_get addr).isSome ↔ addr < 0x800)
  ∧ ((s.ram_set addr v).isSome ↔ addr < 0x800) := by
  unfold State.ram_get State.ram_set RAM_SIZE
  constructor
  · split <;> simp_all
  · split <;> simp_all

/-- C5: on accumulator `0` and operand `Immediate 0xFF` (with Negative
and Overflow previously set), `bit` leaves Zero false, clears Negative
and clears Overflow, because it derives N/V from `accumulator & operand
= 0` and never writes the Zero flag — the claim requires Zero = true,
Negative = bit 7 of `0xFF` = true and Overflow = bit 6 of `0xFF` =
true.  The accumulator is left unchanged as claimed. -/
theorem bit_takes_flags_from_and_result :
    (Nesem.bit
        ((({ State.new_undefined with accumulator := 0 } : State).set_negative
            true).set_overflow true)
        (Operand.Immediate 0xFF)).map
      (fun t => (t.get_zero, t.get_negative, t.get_overflow, t.accumulator))
      = some (false, false, false, 0) := rfl

/-- C6: on a state with Overflow and Interrupt-disable both set, `clv`
leaves Overflow set and clears Interrupt-disable — because
`flag!(clv, set_interrupt)` wires `clv` to `set_interrupt(false)` —
contradicting the claim that `clv` clears Overflow and leaves the
Interrupt-disable flag unchanged. -/
theorem clv_clears_interrupt_not_overflow :
    ((clv ((State.new_undefined.set_overflow true).set_interrupt true)
        Operand.Implicit).get_overflow = true)
  ∧ ((clv ((State.new_undefined.set_overflow true).set_interrupt true)
        Operand.Implicit).get_interrupt = false) :=
  ⟨rfl, rfl⟩

/-- C8: with accumulator `0x01` and Carry clear, `rol` and `ror` on the
`Accumulator` operand leave the accumulator at `0x01` and the Zero flag
untouched, and `ror` sets Carry from bit 7 (false) instead of the
shifted-out bit 0 — the rotated value is computed into a local and
never written back.  The claim requires `rol` to store `0x02` and
`ror` to store `0x00` with Carry = true. -/
theorem rol_ror_discard_their_result :
    ((rol { State.new_undefined with accumulator := 1 } Operand.Accumulator).map
        (fun t => (t.accumulator, t.get_carry, t.get_zero)) = some (1, false, false))
  ∧ ((ror { State.new_undefined with accumulator := 1 } Operand.Accumulator).map
        (fun t => (t.accumulator, t.get_carry, t.get_zero)) = some (1, false, false)) :=
  ⟨rfl, rfl⟩

/-- C10: `State::new_undefined` returns the fully-determined state with
`psw = 0x20` (only the hardwired bit 5 set; Carry, Zero,
Interrupt-disable, Decimal, Break, Overflow, Negative all clear),
`pc = sp = accumulator = x = y = 0`, and all three backing arrays
zero-filled, so the bit-5 invariant holds from construction. -/
theorem new_undefined_is_fully_determined :
    State.new_undefined.psw = 0x20
  ∧ State.new_undefined.pc = 0
  ∧ State.new_undefined.sp = 0
  ∧ State.new_undefined.accumulator = 0
  ∧ State.new_undefined.x = 0
  ∧ State.new_undefined.y = 0
  ∧ State.new_undefined.ram = (fun _ => 0)
  ∧ State.new_undefined.ppu_registers = (fun _ => 0)
  ∧ State.new_undefined.apu_input = (fun _ => 0)
  ∧ State.new_undefined.get_carry = false
  ∧ State.new_undefined.get_zero = false
  ∧ State.new_undefined.get_interrupt = false
  ∧ State.new_undefined.get_break = false
  ∧ State.new_undefined.get_overflow = false
  ∧ State.new_undefined.get_negative = false
  ∧ State.new_undefined.psw &&& PSW_DECIMAL_BIT = 0
  ∧ State.new_undefined.psw &&& PSW_ONE_BIT = PSW_ONE_BIT :=
  ⟨rfl, rfl, rfl, rfl, rfl, rfl, rfl, rfl, rfl, rfl, rfl, rfl, rfl, rfl, rfl,
   rfl, rfl⟩

/-- C3 amended: `push_pc` pushes the low byte of `pc` first and then the
high byte; `pop_pc` pops the first byte into the high position
(shifted left 8) and then ORs the second popped byte into the low
position, so `pc = (first_popped << 8) | second_popped`. -/
theorem push_pc_low_first_pop_pc_high_first (s : State) :
    (s.push_pc = (s.stack_push (s.pc % 256)).bind
      (fun t => t.stack_push ((s.pc >>> 8) % 256)))
  ∧ (s.pop_pc = (({ s with pc := 0 } : State).stack_pop).bind
      (fun p => (({ p.2 with pc := (p.1 <<< 8) % 65536 } : State).stack_pop).bind
        (fun q => some { q.2 with pc := ((p.1 <<< 8) % 65536) ||| q.1 }))) := by
  constructor
  · unfold State.push_pc
    cases h : s.stack_push (s.pc % 256) with
    | none => rfl
    | some t => simp [stack_push_preserves_pc s _ t h]
  · unfold State.pop_pc
    cases h1 : ({ s with pc := 0 } : State).stack_pop with
    | none => simp [h1]
    | some p =>
      obtain ⟨v1, s1⟩ := p
      cases h2 : ({ s1 with pc := (v1 <<< 8) % 65536 } : State).stack_pop with
      | none => simp [h1, h2]
      | some q =>
        obtain ⟨v2, s2⟩ := q
        have hpc := stack_pop_preserves_pc _ v2 s2 h2
        simp [h1, h2, hpc]

/-- C7: starting from any state with an 8-bit accumulator `a`, running
`adc` with Carry cleared and an immediate operand `b`, then `sbc` on the
result with the Carry flag set, restores the accumulator to `a`. -/
theorem sbc_inverts_adc (s : State) (b : Nat) (ha : s.accumulator < 256)
    (hb : b < 256) :
    ((adc (s.set_carry false) (Operand.Immediate b)).bind
        (fun s1 => sbc (s1.set_carry true) (Operand.Immediate b))).map
      State.accumulator = some s.accumulator := by
  have h1 : (s.accumulator + b) % 256 ≤ 255 := by omega
  simp [adc, sbc, get_value, get_u8, get_carry_set_carry, checkedAdd8, checkedSub,
    set_carry_accumulator, set_zero_accumulator, set_overflow_accumulator,
    set_negative_accumulator, wsub8, h1]
  omega

/-- C7 witness: the round trip at accumulator `3`, operand `250`. -/
theorem sbc_inverts_adc_at_3_250 :
    ((adc (({ State.new_undefined with accumulator := 3 } : State).set_carry false)
        (Operand.Immediate 250)).bind
      (fun s1 => sbc (s1.set_carry true) (Operand.Immediate 250))).map
      State.accumulator = some 3 :=
  sbc_inverts_adc { State.new_undefined with accumulator := 3 } 250 (by decide)
    (by decide)

/-- C9 counterexample: `set_u8` on a `Relative` operand does not fail:
with `pc = 0` and offset `0` it resolves to address `0` and writes the
value there, returning `Ok` — the claim says `Relative` is rejected as
not writable with the state unchanged. -/
theorem set_u8_relative_succeeds :
    (set_u8 (Operand.Relative 0) 0x42 State.new_undefined).map
      (fun p => ((match p.1 with | .ok _ => true | .error _ => false),
        p.2.ram_get 0)) = some (true, some 0x42) := rfl

theorem set_u8_of_pointer (op : Operand) (v : Nat) (s : State) (p : Nat)
    (hp : get_pointer op s = some (some p)) :
    set_u8 op v s = (s.ram_set p v).map (fun t => (Except.ok (), t)) := by
  unfold set_u8
  rw [hp]
  show (match s.ram_set p v with
        | none => none
        | some s' => some (Except.ok (), s')) = _
  cases s.ram_set p v <;> rfl

theorem set_u8_error_shape (op : Operand) (v : Nat) (s s' : State)
    (h : set_u8 op v s = some (Except.error (), s')) :
    get_pointer op s = some none ∧ op ≠ Operand.Accumulator ∧ s' = s := by
  unfold set_u8 at h
  cases hgp : get_pointer op s with
  | none => rw [hgp] at h; cases h
  | some po =>
    cases po with
    | none =>
      rw [hgp] at h
      cases op <;> simp_all
    | some p =>
      rw [hgp] at h
      replace h : (match s.ram_set p v with
          | none => none
          | some t => some (Except.ok (), t)) = some (Except.error (), s') := h
      cases hset : s.ram_set p v <;> rw [hset] at h <;> simp at h

theorem get_pointer_eq_some_none (op : Operand) (s : State)
    (h : get_pointer op s = some none) :
    op = Operand.Implicit ∨ op = Operand.Accumulator ∨
      ∃ n, op = Operand.Immediate n := by
  cases op <;> simp_all [get_pointer, Option.map_eq_some', Option.bind_eq_some]

/-- C9 amended: `set_u8` returns the not-writable error, with the state
unchanged, exactly for `Implicit` and `Immediate`; for `Accumulator` it
writes the accumulator; whenever `get_pointer` resolves an address
(which includes `Relative`, resolved to `pc + offset`) it writes there
through `ram_set` (so it aborts, rather than failing recoverably, when
the resolved address is outside the 2 KB ram). -/
theorem set_u8_error_exactly_implicit_immediate (op : Operand) (v : Nat)
    (s : State) :
    (∀ s', set_u8 op v s = some (Except.error (), s') →
        s' = s ∧ (op = Operand.Implicit ∨ ∃ n, op = Operand.Immediate n))
  ∧ ((op = Operand.Implicit ∨ (∃ n, op = Operand.Immediate n)) →
        set_u8 op v s = some (Except.error (), s))
  ∧ (op = Operand.Accumulator →
        set_u8 op v s = some (Except.ok (), { s with accumulator := v }))
  ∧ (∀ p, get_pointer op s = some (some p) →
        set_u8 op v s = (s.ram_set p v).map (fun t => (Except.ok (), t))) := by
  refine ⟨?_, ?_, ?_, fun p hp => set_u8_of_pointer op v s p hp⟩
  · intro s' h
    obtain ⟨hgp, hne, heq⟩ := set_u8_error_shape op v s s' h
    refine ⟨heq, ?_⟩
    rcases get_pointer_eq_some_none op s hgp with rfl | rfl | ⟨n, rfl⟩
    · exact Or.inl rfl
    · exact absurd rfl hne
    · exact Or.inr ⟨n, rfl⟩
  · rintro (rfl | ⟨n, rfl⟩) <;> rfl
  · rintro rfl; rfl

/-- C9 witness: `Implicit` is rejected with the state unchanged, and a
`ZeroPage` operand is written through `ram_set`. -/
theorem set_u8_spec_witness :
    set_u8 Operand.Implicit 7 State.new_undefined
        = some (Except.error (), State.new_undefined)
      ∧ set_u8 (Operand.ZeroPage 5) 7 State.new_undefined
        = (State.new_undefined.ram_set 5 7).map (fun t => (Except.ok (), t)) :=
  ⟨(set_u8_error_exactly_implicit_immediate Operand.Implicit 7
      State.new_undefined).2.1 (Or.inl rfl),
   (set_u8_error_exactly_implicit_immediate (Operand.ZeroPage 5) 7
      State.new_undefined).2.2.2 5 rfl⟩

/-- C4 amended witness: totality of `ram_get`/`ram_set` at a concrete
in-range address. -/
theorem ram_access_total_at_3 :
    ((State.new_undefined.ram_get 3).isSome ↔ 3 < 0x800)
  ∧ ((State.new_undefined.ram_set 3 9).isSome ↔ 3 < 0x800) :=
  ram_access_total_iff_below_0x800 State.new_undefined 3 9

end Nesem
